import Mathlib

/-!
Verification of the bouncing-ball tracker client/server application.

The development shallowly embeds the Python sources:
  * `server/server.py`: the `Ball` physics simulator (`update_position` /
    `_check_bounce`) and the telemetry `on_message` handler of
    `setup_data_channel`;
  * `client/client.py`: the detection pipeline (`find_ball_coordinates`,
    `process_frame`), the shared coordinate cells created in `run_client`,
    and the interleavings of the detector's writes with a concurrent reader.

Python `int`s are modelled as `Int` (they are unbounded).  The OpenCV
primitives (grayscale conversion, thresholding, contour extraction,
minimum-enclosing-circle fitting) are external collaborators; a frame is
modelled by the output of that black-box extraction, namely its list of
contours, each carrying its area and the integer-truncated centre of its
minimum enclosing circle.  `math.sqrt` is modelled by `Real.sqrt`.
-/

/-- The `Ball` class of `server/server.py`: position, velocity and radius,
all Python ints. -/
structure Ball where
  x : Int
  y : Int
  velocity_x : Int
  velocity_y : Int
  radius : Int
deriving DecidableEq, Repr

/-- `Ball._check_bounce(self, width, height)`: reverses `velocity_x` when
`self.x - self.radius <= 0 or self.x + self.radius >= width`, then reverses
`velocity_y` when `self.y - self.radius <= 0 or self.y + self.radius >= height`
(the leading underscore of the Python name is dropped). -/
def Ball.check_bounce (b : Ball) (width height : Int) : Ball :=
  let b1 := if b.x - b.radius ≤ 0 ∨ b.x + b.radius ≥ width then
    { b with velocity_x := -b.velocity_x } else b
  if b1.y - b1.radius ≤ 0 ∨ b1.y + b1.radius ≥ height then
    { b1 with velocity_y := -b1.velocity_y } else b1

/-- `Ball.update_position(self, width, height)`: `self.x += self.velocity_x`,
`self.y += self.velocity_y`, then `self._check_bounce(width, height)`. -/
def Ball.update_position (b : Ball) (width height : Int) : Ball :=
  Ball.check_bounce { b with x := b.x + b.velocity_x, y := b.y + b.velocity_y }
    width height

lemma update_position_x (b : Ball) (w h : Int) :
    (b.update_position w h).x = b.x + b.velocity_x := by
  simp only [Ball.update_position, Ball.check_bounce]
  split_ifs <;> rfl

lemma update_position_y (b : Ball) (w h : Int) :
    (b.update_position w h).y = b.y + b.velocity_y := by
  simp only [Ball.update_position, Ball.check_bounce]
  split_ifs <;> rfl

lemma update_position_radius (b : Ball) (w h : Int) :
    (b.update_position w h).radius = b.radius := by
  simp only [Ball.update_position, Ball.check_bounce]
  split_ifs <;> rfl

lemma update_position_vx (b : Ball) (w h : Int) :
    (b.update_position w h).velocity_x = b.velocity_x ∨
      (b.update_position w h).velocity_x = -b.velocity_x := by
  simp only [Ball.update_position, Ball.check_bounce]
  split_ifs <;> simp

lemma update_position_vy (b : Ball) (w h : Int) :
    (b.update_position w h).velocity_y = b.velocity_y ∨
      (b.update_position w h).velocity_y = -b.velocity_y := by
  simp only [Ball.update_position, Ball.check_bounce]
  split_ifs <;> simp

/-- Claim C1: one call to `update_position(width, height)` first adds the
velocity to the position unconditionally, and then, for each axis
independently, negates that axis's velocity component exactly when the
post-move position minus the radius is ≤ 0 or the post-move position plus
the radius is ≥ the corresponding dimension; the position is not changed
again within the call, so the inversion affects only future ticks. -/
theorem c1_update_position_spec (b : Ball) (w h : Int)
    (hw : 0 < w) (hh : 0 < h) :
    b.update_position w h =
      { x := b.x + b.velocity_x,
        y := b.y + b.velocity_y,
        velocity_x :=
          if b.x + b.velocity_x - b.radius ≤ 0 ∨
              b.x + b.velocity_x + b.radius ≥ w then
            -b.velocity_x else b.velocity_x,
        velocity_y :=
          if b.y + b.velocity_y - b.radius ≤ 0 ∨
              b.y + b.velocity_y + b.radius ≥ h then
            -b.velocity_y else b.velocity_y,
        radius := b.radius } := by
  simp only [Ball.update_position, Ball.check_bounce]
  split_ifs <;> rfl

/-- Witness for C1 at the server's initial ball inside a 640×480 frame. -/
theorem c1_update_position_spec_witness :
    Ball.update_position ⟨320, 240, 2, 2, 30⟩ 640 480 = ⟨322, 242, 2, 2, 30⟩ :=
  (c1_update_position_spec ⟨320, 240, 2, 2, 30⟩ 640 480 (by decide)
    (by decide)).trans (by decide)

/-- Claim C2 fails as stated: a ball with positive radius that starts at the
lower boundary of the valid band and moves further toward the wall ends the
tick strictly below `radius` — `update_position` never clamps the position,
it only inverts the velocity for future ticks.  Ball `(30, 240)` with
velocity `(-2, 0)` and radius `30` in a 640×480 frame lands at `x = 28 < 30`. -/
theorem c2_counterexample :
    (0 : Int) < (⟨30, 240, -2, 0, 30⟩ : Ball).radius ∧
      ¬ ((⟨30, 240, -2, 0, 30⟩ : Ball).radius ≤
          (Ball.update_position ⟨30, 240, -2, 0, 30⟩ 640 480).x) := by
  constructor
  · decide
  · decide

/-- Claim C2, amended: for every ball with `radius > 0` whose position lies
within `[radius, dimension - radius]` on each axis before the call, after one
`update_position(width, height)` the position on each axis stays within the
band widened by one tick's velocity magnitude,
`[radius - |velocity|, dimension - radius + |velocity|]` (the documented
one-tick overshoot; the exact band `[radius, dimension - radius]` is not
re-established, as the counterexample shows). -/
theorem c2_position_band (b : Ball) (w h : Int) (hr : 0 < b.radius)
    (hx1 : b.radius ≤ b.x) (hx2 : b.x ≤ w - b.radius)
    (hy1 : b.radius ≤ b.y) (hy2 : b.y ≤ h - b.radius) :
    (b.radius - |b.velocity_x| ≤ (b.update_position w h).x ∧
      (b.update_position w h).x ≤ w - b.radius + |b.velocity_x|) ∧
    (b.radius - |b.velocity_y| ≤ (b.update_position w h).y ∧
      (b.update_position w h).y ≤ h - b.radius + |b.velocity_y|) := by
  rw [update_position_x, update_position_y]
  rcases abs_cases b.velocity_x with ⟨ex, _⟩ | ⟨ex, _⟩ <;>
    rcases abs_cases b.velocity_y with ⟨ey, _⟩ | ⟨ey, _⟩ <;>
      rw [ex, ey] <;> omega

/-- Witness for the amended C2 at the server's initial ball. -/
theorem c2_position_band_witness :
    ((30 : Int) - |(2 : Int)| ≤ (Ball.update_position ⟨320, 240, 2, 2, 30⟩ 640 480).x ∧
      (Ball.update_position ⟨320, 240, 2, 2, 30⟩ 640 480).x ≤ 640 - 30 + |(2 : Int)|) ∧
    ((30 : Int) - |(2 : Int)| ≤ (Ball.update_position ⟨320, 240, 2, 2, 30⟩ 640 480).y ∧
      (Ball.update_position ⟨320, 240, 2, 2, 30⟩ 640 480).y ≤ 480 - 30 + |(2 : Int)|) :=
  c2_position_band ⟨320, 240, 2, 2, 30⟩ 640 480 (by decide) (by decide)
    (by decide) (by decide) (by decide)

/-- Claim C5: for every ball with valid position (within
`[radius, dimension - radius]` on each axis, with `radius > 0` per the data
model's invariant) and `radius ≤ min(width, height) / 2`, one call to
`update_position(width, height)` leaves the centre on each axis within
`[-|velocity|, dimension + |velocity|]` — bounded one-tick overshoot. -/
theorem c5_bounded_overshoot (b : Ball) (w h : Int) (hr : 0 < b.radius)
    (hx1 : b.radius ≤ b.x) (hx2 : b.x ≤ w - b.radius)
    (hy1 : b.radius ≤ b.y) (hy2 : b.y ≤ h - b.radius)
    (hrw : 2 * b.radius ≤ w) (hrh : 2 * b.radius ≤ h) :
    (-|b.velocity_x| ≤ (b.update_position w h).x ∧
      (b.update_position w h).x ≤ w + |b.velocity_x|) ∧
    (-|b.velocity_y| ≤ (b.update_position w h).y ∧
      (b.update_position w h).y ≤ h + |b.velocity_y|) := by
  rw [update_position_x, update_position_y]
  rcases abs_cases b.velocity_x with ⟨ex, _⟩ | ⟨ex, _⟩ <;>
    rcases abs_cases b.velocity_y with ⟨ey, _⟩ | ⟨ey, _⟩ <;>
      rw [ex, ey] <;> omega

/-- Witness for C5 at the server's initial ball. -/
theorem c5_bounded_overshoot_witness :
    (-|(2 : Int)| ≤ (Ball.update_position ⟨320, 240, 2, 2, 30⟩ 640 480).x ∧
      (Ball.update_position ⟨320, 240, 2, 2, 30⟩ 640 480).x ≤ 640 + |(2 : Int)|) ∧
    (-|(2 : Int)| ≤ (Ball.update_position ⟨320, 240, 2, 2, 30⟩ 640 480).y ∧
      (Ball.update_position ⟨320, 240, 2, 2, 30⟩ 640 480).y ≤ 480 + |(2 : Int)|) :=
  c5_bounded_overshoot ⟨320, 240, 2, 2, 30⟩ 640 480 (by decide) (by decide)
    (by decide) (by decide) (by decide) (by decide) (by decide)

/-- Claim C10: every call to `update_position` leaves the radius unchanged
and preserves the absolute value of each velocity component — the new
`velocity_x` is the old one or its negation (likewise `velocity_y`), so the
per-axis speed magnitudes and the radius are invariant under ticking. -/
theorem c10_speed_and_radius_invariant (b : Ball) (w h : Int) :
    (b.update_position w h).radius = b.radius ∧
    ((b.update_position w h).velocity_x = b.velocity_x ∨
      (b.update_position w h).velocity_x = -b.velocity_x) ∧
    ((b.update_position w h).velocity_y = b.velocity_y ∨
      (b.update_position w h).velocity_y = -b.velocity_y) ∧
    |(b.update_position w h).velocity_x| = |b.velocity_x| ∧
    |(b.update_position w h).velocity_y| = |b.velocity_y| := by
  refine ⟨update_position_radius b w h, update_position_vx b w h,
    update_position_vy b w h, ?_, ?_⟩
  · rcases update_position_vx b w h with e | e <;> rw [e] <;> simp
  · rcases update_position_vy b w h with e | e <;> rw [e] <;> simp

/-- Output of the black-box OpenCV extraction for one external contour of a
thresholded frame (`client/client.py`, `find_ball_coordinates`): its area as
returned by `cv2.contourArea` and the integer-truncated centre
`(int(x), int(y))` of its minimum enclosing circle. -/
structure Contour where
  area : Nat
  center : Int × Int
deriving DecidableEq, Repr

/-- A received video frame, modelled by the result of the black-box pipeline
grayscale → threshold at 250 → `cv2.findContours` applied to it: the list of
external contours, in extraction order. -/
structure Frame where
  contours : List Contour
deriving DecidableEq, Repr

/-- `max(contours, key=cv2.contourArea)`: Python's `max` keeps the current
maximum and replaces it only on a strictly larger key, so it returns the
first contour of maximal area. -/
def largest_contour (c : Contour) (cs : List Contour) : Contour :=
  cs.foldl (fun best d => if d.area > best.area then d else best) c

/-- `find_ball_coordinates(frame)` of `client/client.py`: if the contour
list is non-empty, return the centre of the largest contour's minimum
enclosing circle; otherwise return `None`. -/
def find_ball_coordinates (f : Frame) : Option (Int × Int) :=
  match f.contours with
  | [] => none
  | c :: cs => some (largest_contour c cs).center

/-- The per-frame body of the `process_frame` loop of `client/client.py`:
`coordinates = find_ball_coordinates(frame); if coordinates:
x_value.value, y_value.value = coordinates`.  A Python tuple is truthy even
when it is `(0, 0)`, so the shared pair is overwritten exactly when
detection succeeded, and kept otherwise. -/
def process_frame_step (s : Int × Int) (f : Frame) : Int × Int :=
  match find_ball_coordinates f with
  | some c => c
  | none => s

/-- The `process_frame(frame_queue, x_value, y_value)` loop of
`client/client.py`, with the queue contents given as a list (`none` is the
`None` shutdown sentinel).  Returns the final shared pair together with the
list of frames on which detection was actually run, in order; the loop
breaks at the first sentinel.  (On an exhausted list with no sentinel the
Python loop would block in `frame_queue.get()`; that case is never reached
in the claims, which always include the sentinel.) -/
def process_frame : List (Option Frame) → Int × Int → (Int × Int) × List Frame
  | [], s => (s, [])
  | none :: _, s => (s, [])
  | some f :: rest, s =>
    let r := process_frame rest (process_frame_step s f)
    (r.1, f :: r.2)

/-- Claim C6: a frame whose thresholding yields no contours makes
`find_ball_coordinates` return `None`, and after `process_frame` handles
such a frame the shared coordinate pair is exactly what it was before. -/
theorem c6_no_contours_keeps_store (f : Frame) (s : Int × Int)
    (hc : f.contours = []) :
    find_ball_coordinates f = none ∧ process_frame_step s f = s := by
  have hfind : find_ball_coordinates f = none := by
    unfold find_ball_coordinates
    rw [hc]
  exact ⟨hfind, by unfold process_frame_step; rw [hfind]⟩

/-- Witness for C6 on an all-background frame with the store at `(320, 240)`. -/
theorem c6_no_contours_keeps_store_witness :
    find_ball_coordinates ⟨[]⟩ = none ∧
      process_frame_step (320, 240) ⟨[]⟩ = (320, 240) :=
  c6_no_contours_keeps_store ⟨[]⟩ (320, 240) rfl

/-- Claim C7: with the queue holding `N` real frames followed by the `None`
shutdown sentinel (and anything after it), the detector loop runs detection
on exactly those `N` frames, in FIFO order, and exits; the final shared pair
is the left fold of the per-frame step over them. -/
theorem c7_sentinel_processes_exactly_queued (frames : List Frame)
    (rest : List (Option Frame)) (s : Int × Int) :
    process_frame (frames.map some ++ none :: rest) s =
      (frames.foldl process_frame_step s, frames) := by
  induction frames generalizing s with
  | nil => rfl
  | cons f fs ih => simp [process_frame, List.foldl, ih]

/-- Initial value of the shared `x_value` cell:
`multiprocessing.Value(ctypes.c_int, 0)` in `run_client`. -/
def x_value_init : Int := 0

/-- Initial value of the shared `y_value` cell:
`multiprocessing.Value(ctypes.c_int, 0)` in `run_client`. -/
def y_value_init : Int := 0

/-- The display loop's test `(x_value.value, y_value.value) != (0, 0)` in
`run_client.on_track`, by which the client decides whether the coordinates
have ever been updated. -/
def coordinates_updated (x y : Int) : Bool := (x, y) ≠ (0, 0)

/-- Claim C8 fails as stated: the "unset" state is the concrete pair
`(0, 0)`, and a successful detection can produce exactly that value — a
contour whose minimum-enclosing-circle centre truncates to `(0, 0)` (for
example a single bright pixel at the origin) is stored as `(0, 0)`, which is
indistinguishable from the initial, never-written state. -/
theorem c8_counterexample :
    find_ball_coordinates ⟨[⟨1, (0, 0)⟩]⟩ = some (x_value_init, y_value_init) := by
  decide

/-- Claim C8, amended: the unset state is the concrete pair `(0, 0)` (both
shared cells are initialised to `0`); before any detection has been stored,
reading the store yields `(0, 0)` and the display loop treats it as unset —
but `(0, 0)` is not distinguishable from every detection, since a detection
centred at the origin produces the same pair and is therefore also treated
as unset. -/
theorem c8_sentinel_is_zero_pair :
    (x_value_init, y_value_init) = (0, 0) ∧
    coordinates_updated x_value_init y_value_init = false ∧
    find_ball_coordinates ⟨[⟨1, (0, 0)⟩]⟩ = some (0, 0) ∧
    coordinates_updated 0 0 = false := by
  decide

/-- One primitive access to the shared coordinate cells.  The detector's
publication `x_value.value, y_value.value = coordinates`
(`client/client.py`, `process_frame`) is two separate stores, one per
`multiprocessing.Value` cell; the broadcaster building its JSON payload from
`x_value.value` and `y_value.value` (`send_coordinates`) is two separate
loads.  Each single access is atomic
(each `Value` carries its own lock), but no lock spans a pair of accesses. -/
inductive StoreOp where
  | wx (v : Int)
  | wy (v : Int)
  | rx
  | ry
deriving DecidableEq, Repr

/-- A value observed by one of the reader's two loads. -/
inductive StoreObs where
  | ox (v : Int)
  | oy (v : Int)
deriving DecidableEq, Repr

/-- Executes a merged access sequence against the shared pair, returning the
final cell contents and the reader observations in order. -/
def runOps : List StoreOp → Int × Int → (Int × Int) × List StoreObs
  | [], s => (s, [])
  | StoreOp.wx v :: t, s => runOps t (v, s.2)
  | StoreOp.wy v :: t, s => runOps t (s.1, v)
  | StoreOp.rx :: t, s =>
    let r := runOps t s
    (r.1, StoreObs.ox s.1 :: r.2)
  | StoreOp.ry :: t, s =>
    let r := runOps t s
    (r.1, StoreObs.oy s.2 :: r.2)

/-- `IsInterleaving l1 l2 l3` holds when `l3` is an order-preserving merge
of the access sequences `l1` and `l2` of two concurrent threads. -/
inductive IsInterleaving : List StoreOp → List StoreOp → List StoreOp → Prop
  | nil : IsInterleaving [] [] []
  | left {l1 l2 l3} (a : StoreOp) :
      IsInterleaving l1 l2 l3 → IsInterleaving (a :: l1) l2 (a :: l3)
  | right {l1 l2 l3} (a : StoreOp) :
      IsInterleaving l1 l2 l3 → IsInterleaving l1 (a :: l2) (a :: l3)

/-- The detector's accesses while publishing two successive detections `d1`
then `d2`: for each, store x then store y. -/
def writer_ops (d1 d2 : Int × Int) : List StoreOp :=
  [StoreOp.wx d1.1, StoreOp.wy d1.2, StoreOp.wx d2.1, StoreOp.wy d2.2]

/-- One broadcaster iteration's accesses: load x, then load y. -/
def reader_ops : List StoreOp := [StoreOp.rx, StoreOp.ry]

/-- The schedule in which the reader runs between the second detection's
x-store and y-store. -/
def torn_schedule : List StoreOp :=
  [StoreOp.wx 1, StoreOp.wy 2, StoreOp.wx 3, StoreOp.rx, StoreOp.ry,
    StoreOp.wy 4]

lemma torn_schedule_is_interleaving :
    IsInterleaving (writer_ops (1, 2) (3, 4)) reader_ops torn_schedule :=
  .left _ (.left _ (.left _ (.right _ (.right _ (.left _ .nil)))))

/-- Claim C4 fails as stated: the two coordinates are published as two
independent stores, so a reader interleaved between them observes a torn
pair.  With detections `(1, 2)` then `(3, 4)` from initial store `(0, 0)`,
the schedule that runs the reader between the stores of the second
detection observes `(3, 2)` — the x of the second detection with the y of
the first — which is none of the initial pair or either detection's pair. -/
theorem c4_counterexample :
    IsInterleaving (writer_ops (1, 2) (3, 4)) reader_ops torn_schedule ∧
    (runOps torn_schedule (0, 0)).2 = [StoreObs.ox 3, StoreObs.oy 2] ∧
    ((3 : Int), (2 : Int)) ≠ ((0 : Int), (0 : Int)) ∧
    ((3 : Int), (2 : Int)) ≠ ((1 : Int), (2 : Int)) ∧
    ((3 : Int), (2 : Int)) ≠ ((3 : Int), (4 : Int)) :=
  ⟨torn_schedule_is_interleaving, by decide, by decide, by decide, by decide⟩

lemma runOps_ox_mem (ops : List StoreOp) (s : Int × Int) (v : Int) :
    StoreObs.ox v ∈ (runOps ops s).2 → v = s.1 ∨ StoreOp.wx v ∈ ops := by
  induction ops generalizing s with
  | nil => intro hmem; simp [runOps] at hmem
  | cons o t ih =>
    cases o with
    | wx w =>
      intro hmem
      rcases ih (w, s.2) hmem with e | e
      · exact Or.inr (by simp [e])
      · exact Or.inr (List.mem_cons_of_mem _ e)
    | wy w =>
      intro hmem
      rcases ih (s.1, w) hmem with e | e
      · exact Or.inl e
      · exact Or.inr (List.mem_cons_of_mem _ e)
    | rx =>
      intro hmem
      simp only [runOps, List.mem_cons] at hmem
      rcases hmem with e | hmem
      · exact Or.inl (by injection e)
      · rcases ih s hmem with e | e
        · exact Or.inl e
        · exact Or.inr (List.mem_cons_of_mem _ e)
    | ry =>
      intro hmem
      simp only [runOps, List.mem_cons] at hmem
      rcases hmem with e | hmem
      · exact absurd e (by simp)
      · rcases ih s hmem with e | e
        · exact Or.inl e
        · exact Or.inr (List.mem_cons_of_mem _ e)

lemma runOps_oy_mem (ops : List StoreOp) (s : Int × Int) (v : Int) :
    StoreObs.oy v ∈ (runOps ops s).2 → v = s.2 ∨ StoreOp.wy v ∈ ops := by
  induction ops generalizing s with
  | nil => intro hmem; simp [runOps] at hmem
  | cons o t ih =>
    cases o with
    | wx w =>
      intro hmem
      rcases ih (w, s.2) hmem with e | e
      · exact Or.inl e
      · exact Or.inr (List.mem_cons_of_mem _ e)
    | wy w =>
      intro hmem
      rcases ih (s.1, w) hmem with e | e
      · exact Or.inr (by simp [e])
      · exact Or.inr (List.mem_cons_of_mem _ e)
    | rx =>
      intro hmem
      simp only [runOps, List.mem_cons] at hmem
      rcases hmem with e | hmem
      · exact absurd e (by simp)
      · rcases ih s hmem with e | e
        · exact Or.inl e
        · exact Or.inr (List.mem_cons_of_mem _ e)
    | ry =>
      intro hmem
      simp only [runOps, List.mem_cons] at hmem
      rcases hmem with e | hmem
      · exact Or.inl (by injection e)
      · rcases ih s hmem with e | e
        · exact Or.inl e
        · exact Or.inr (List.mem_cons_of_mem _ e)

lemma interleaving_mem {l1 l2 l3 : List StoreOp}
    (h : IsInterleaving l1 l2 l3) :
    ∀ a ∈ l3, a ∈ l1 ∨ a ∈ l2 := by
  induction h with
  | nil => intro a ha; simp at ha
  | left o _ ih =>
    intro a ha
    rcases List.mem_cons.mp ha with e | ha
    · exact Or.inl (by simp [e])
    · rcases ih a ha with e | e
      · exact Or.inl (List.mem_cons_of_mem _ e)
      · exact Or.inr e
  | right o _ ih =>
    intro a ha
    rcases List.mem_cons.mp ha with e | ha
    · exact Or.inr (by simp [e])
    · rcases ih a ha with e | e
      · exact Or.inl e
      · exact Or.inr (List.mem_cons_of_mem _ e)

/-- Claim C4, amended: each coordinate cell is written atomically on its
own, but the pair is not published as one unit.  In every interleaving of
the detector's stores for two successive detections with one broadcaster
iteration, each observed x is an actually written x (or the initial one) and
each observed y is an actually written y (or the initial one) — per-cell
integrity — while the observed pair may be torn, mixing the x of one
detection with the y of a different one, as the counterexample schedule
shows. -/
theorem c4_per_cell_integrity (init d1 d2 : Int × Int)
    (merged : List StoreOp)
    (h : IsInterleaving (writer_ops d1 d2) reader_ops merged)
    (vx vy : Int)
    (hx : StoreObs.ox vx ∈ (runOps merged init).2)
    (hy : StoreObs.oy vy ∈ (runOps merged init).2) :
    (vx = init.1 ∨ vx = d1.1 ∨ vx = d2.1) ∧
    (vy = init.2 ∨ vy = d1.2 ∨ vy = d2.2) := by
  constructor
  · rcases runOps_ox_mem merged init vx hx with e | hm
    · exact Or.inl e
    · rcases interleaving_mem h _ hm with hw | hrd
      · simp only [writer_ops, List.mem_cons, List.not_mem_nil, or_false] at hw
        rcases hw with e | e | e | e
        · exact Or.inr (Or.inl (by injection e))
        · exact absurd e (by simp)
        · exact Or.inr (Or.inr (by injection e))
        · exact absurd e (by simp)
      · exact absurd hrd (by simp [reader_ops])
  · rcases runOps_oy_mem merged init vy hy with e | hm
    · exact Or.inl e
    · rcases interleaving_mem h _ hm with hw | hrd
      · simp only [writer_ops, List.mem_cons, List.not_mem_nil, or_false] at hw
        rcases hw with e | e | e | e
        · exact absurd e (by simp)
        · exact Or.inr (Or.inl (by injection e))
        · exact absurd e (by simp)
        · exact Or.inr (Or.inr (by injection e))
      · exact absurd hrd (by simp [reader_ops])

/-- Witness for the amended C4 on the torn schedule. -/
theorem c4_per_cell_integrity_witness :
    ((3 : Int) = 0 ∨ (3 : Int) = 1 ∨ (3 : Int) = 3) ∧
    ((2 : Int) = 0 ∨ (2 : Int) = 2 ∨ (2 : Int) = 4) :=
  c4_per_cell_integrity (0, 0) (1, 2) (3, 4) torn_schedule
    torn_schedule_is_interleaving 3 2 (by decide) (by decide)

/-- A JSON value as relevant to the telemetry wire format: an integer, or a
value of any non-numeric shape (modelled by a string). -/
inductive JVal where
  | int (n : Int)
  | str (s : String)
deriving DecidableEq, Repr

/-- A parsed telemetry message: the result of `json.loads` on a JSON object,
a finite map from field names to values. -/
def JMessage := List (String × JVal)

/-- Python dictionary lookup `coordinates[k]`, returning `none` where Python
raises `KeyError`. -/
def getField (m : JMessage) (k : String) : Option JVal :=
  (m.find? (fun p => p.1 = k)).map Prod.snd

/-- The Python exception that escapes `on_message` on a malformed message:
`KeyError` from a missing field, or `TypeError` from arithmetic on a
non-numeric field. -/
inductive HandlerExc where
  | keyError (k : String)
  | typeError
deriving DecidableEq, Repr

/-- The `ErrorSample` the handler reports: reported pair, actual pair, and
the Euclidean deviation computed by `math.sqrt`, modelled over `ℝ`. -/
structure ErrorSample where
  reported : Int × Int
  actual : Int × Int
  deviation : ℝ

/-- The `on_message` handler of `setup_data_channel` in `server/server.py`,
on an already-JSON-parsed message: reads `coordinates["x"]` then
`coordinates["y"]` (raising `KeyError` where a field is missing), computes
`math.sqrt((actual_x - predicted_x) ** 2 + (actual_y - predicted_y) ** 2)`
(raising `TypeError` where a field is non-numeric), and prints the sample.
The source contains no `try`/`except`, so an exception leaves the handler:
the `Except.error` results model the exception propagating out, not a
handled failure. -/
noncomputable def on_message (b : Ball) (msg : JMessage) :
    Except HandlerExc ErrorSample :=
  match getField msg "x" with
  | none => Except.error (HandlerExc.keyError "x")
  | some vx =>
    match getField msg "y" with
    | none => Except.error (HandlerExc.keyError "y")
    | some vy =>
      match vx, vy with
      | JVal.int px, JVal.int py =>
        Except.ok
          { reported := (px, py), actual := (b.x, b.y),
            deviation :=
              Real.sqrt (((b.x - px) ^ 2 + (b.y - py) ^ 2 : Int) : ℝ) }
      | _, _ => Except.error HandlerExc.typeError

/-- Claim C3 is what the spec requires, but the code violates it: the
handler body has no `try`/`except`, so a malformed message makes
`on_message` terminate with an uncaught exception instead of reporting a
decode error and returning normally.  At a message with no `"x"` field the
handler raises `KeyError`; at a non-numeric `"y"` it raises `TypeError`.
The handler itself is stateless, so a following well-formed message is
still evaluated normally. -/
theorem c3_handler_raises_on_malformed :
    on_message ⟨320, 240, 2, 2, 30⟩ [] =
      Except.error (HandlerExc.keyError "x") ∧
    on_message ⟨320, 240, 2, 2, 30⟩ [("x", JVal.int 10), ("y", JVal.str "oops")] =
      Except.error HandlerExc.typeError ∧
    on_message ⟨320, 240, 2, 2, 30⟩ [("x", JVal.int 320), ("y", JVal.int 240)] =
      Except.ok
        { reported := (320, 240), actual := (320, 240),
          deviation :=
            Real.sqrt ((((320 : Int) - 320) ^ 2 + ((240 : Int) - 240) ^ 2 : Int) : ℝ) } :=
  ⟨rfl, rfl, rfl⟩

/-- Claim C9: for every received telemetry message with numeric fields `x`
and `y`, the handler computes the deviation as the Euclidean distance
between the reported coordinates and the ball's current position, and in
particular reported `(320, 240)` against actual `(300, 200)` yields
`sqrt(20² + 40²) = sqrt 2000`, which lies strictly between `44.72` and
`44.73`. -/
theorem c9_euclidean_deviation :
    (∀ (b : Ball) (msg : JMessage) (px py : Int),
      getField msg "x" = some (JVal.int px) →
      getField msg "y" = some (JVal.int py) →
      on_message b msg =
        Except.ok
          { reported := (px, py), actual := (b.x, b.y),
            deviation :=
              Real.sqrt (((b.x - px) ^ 2 + (b.y - py) ^ 2 : Int) : ℝ) }) ∧
    on_message ⟨300, 200, 2, 2, 30⟩ [("x", JVal.int 320), ("y", JVal.int 240)] =
      Except.ok
        { reported := (320, 240), actual := (300, 200),
          deviation := Real.sqrt 2000 } ∧
    (44.72 : ℝ) < Real.sqrt 2000 ∧ Real.sqrt 2000 < (44.73 : ℝ) := by
  refine ⟨?_, ?_, ?_, ?_⟩
  · intro b msg px py hx hy
    unfold on_message
    rw [hx, hy]
  · have e1 : on_message ⟨300, 200, 2, 2, 30⟩
        [("x", JVal.int 320), ("y", JVal.int 240)] =
        Except.ok
          { reported := (320, 240), actual := (300, 200),
            deviation :=
              Real.sqrt ((((300 : Int) - 320) ^ 2 + ((200 : Int) - 240) ^ 2 : Int) : ℝ) } :=
      rfl
    rw [e1]
    simp only [Except.ok.injEq, ErrorSample.mk.injEq]
    norm_num
  · rw [show (44.72 : ℝ) = 4472 / 100 by norm_num]
    rw [Real.lt_sqrt (by norm_num)]
    norm_num
  · rw [show (44.73 : ℝ) = 4473 / 100 by norm_num]
    rw [Real.sqrt_lt' (by norm_num)]
    norm_num

/-- Witness for C9: the handler applied to the message reporting
`(320, 240)` while the ball sits at `(300, 200)`. -/
theorem c9_euclidean_deviation_witness :
    on_message ⟨300, 200, 2, 2, 30⟩ [("x", JVal.int 320), ("y", JVal.int 240)] =
      Except.ok
        { reported := (320, 240), actual := (300, 200),
          deviation :=
            Real.sqrt ((((300 : Int) - 320) ^ 2 + ((200 : Int) - 240) ^ 2 : Int) : ℝ) } :=
  c9_euclidean_deviation.1 ⟨300, 200, 2, 2, 30⟩
    [("x", JVal.int 320), ("y", JVal.int 240)] 320 240 rfl rfl
